import Mathlib

/-!
Verification of the console.log cleanup tool (files src/lib/CodeAnalyzer.js,
src/lib/CodeTransformer.js, src/lib/ModeController.js) against its
specification.  Lines of source text are modelled as `List Char`; a whole
file is a `List Char` that is split on newline characters exactly as
JavaScript `String.split('\n')` does.  Each JavaScript regular-expression
test used by the source is compiled by hand into a decidable predicate on
character lists.
-/

/-! ## String primitives (JavaScript semantics) -/

/-- Whitespace as matched by JavaScript `\s` and `trim` (ASCII part). -/
def jsIsWs (c : Char) : Bool :=
  c == ' ' || c == '\t' || c == '\n' || c == '\r' || c == '\x0b' || c == '\x0c'

/-- Characters excluded by the JavaScript regex dot. -/
def isNL (c : Char) : Bool :=
  c == '\n' || c == '\r' || c == '\u2028' || c == '\u2029'

/-- JavaScript `String.prototype.trimEnd`. -/
def jsTrimEnd (l : List Char) : List Char :=
  (l.reverse.dropWhile jsIsWs).reverse

/-- JavaScript `String.prototype.trim`. -/
def jsTrim (l : List Char) : List Char :=
  jsTrimEnd (l.dropWhile jsIsWs)

/-- Character list of a string literal, for concrete test inputs. -/
def strL (s : String) : List Char := s.toList

/-- Does `pat` occur at the very start of `l` (JavaScript `startsWith`)? -/
def leadMatch : List Char → List Char → Bool
  | [], _ => true
  | _ :: _, [] => false
  | p :: ps, c :: cs => p == c && leadMatch ps cs

/-- Strip the literal `pat` from the front of `l`, if present. -/
def dropLit? : List Char → List Char → Option (List Char)
  | [], l => some l
  | _ :: _, [] => none
  | p :: ps, c :: cs => if p == c then dropLit? ps cs else none

/-- Index of the first occurrence of the literal `pat`, scanning left to right. -/
def firstIdxSubAux (pat : List Char) (n : Nat) : List Char → Option Nat
  | [] => if leadMatch pat [] then some n else none
  | c :: r => if leadMatch pat (c :: r) then some n else firstIdxSubAux pat (n + 1) r

/-- First index of `pat` in `l` (JavaScript `indexOf`, successful case). -/
def firstIdxSub (pat l : List Char) : Option Nat :=
  firstIdxSubAux pat 0 l

/-- JavaScript `String.prototype.includes`. -/
def containsSub (pat l : List Char) : Bool :=
  (firstIdxSub pat l).isSome

/-- JavaScript `String.prototype.indexOf` with its `-1` convention. -/
def jsIndexOf (pat l : List Char) : Int :=
  match firstIdxSub pat l with
  | some n => (n : Int)
  | none => -1

/-- Index of `pat` in `l` as a natural number (`0` when absent); used only
where the surrounding source code has already checked `includes`. -/
def natIdx (pat l : List Char) : Nat :=
  (firstIdxSub pat l).getD 0

/-- JavaScript `String.prototype.endsWith` for a single character. -/
def lastIs (c : Char) (l : List Char) : Bool :=
  match l.getLast? with
  | some d => d == c
  | none => false

/-- JavaScript `content.split('\n')`, accumulator form. -/
def splitAux : List Char → List Char → List (List Char)
  | acc, [] => [acc.reverse]
  | acc, c :: r => if c == '\n' then acc.reverse :: splitAux [] r else splitAux (c :: acc) r

/-- Split a file into its lines on newline characters. -/
def splitLinesL (l : List Char) : List (List Char) :=
  splitAux [] l

/-- JavaScript `lines.join('\n')`. -/
def joinLinesL : List (List Char) → List Char
  | [] => []
  | [l] => l
  | l :: ls => l ++ '\n' :: joinLinesL ls

/-! ## Character classes of the source's regular expressions -/

def asciiAlpha (c : Char) : Bool :=
  ('a' ≤ c && c ≤ 'z') || ('A' ≤ c && c ≤ 'Z')

def asciiDigit (c : Char) : Bool :=
  '0' ≤ c && c ≤ '9'

def asciiAlnum (c : Char) : Bool :=
  asciiAlpha c || asciiDigit c

/-- JavaScript `\w` (word character). -/
def isWordChar (c : Char) : Bool :=
  asciiAlnum c || c == '_'

/-- Class `[a-zA-Z0-9_)\]]` of the method-chain regex. -/
def chainClass (c : Char) : Bool :=
  asciiAlnum c || c == '_' || c == ')' || c == ']'

/-- Class `[a-zA-Z0-9_)\]\}]` of the expression regex. -/
def exprClassA (c : Char) : Bool :=
  asciiAlnum c || c == '_' || c == ')' || c == ']' || c == '}'

/-- Class `[a-zA-Z0-9_{\[(]` of the expression regex. -/
def exprClassB (c : Char) : Bool :=
  asciiAlnum c || c == '_' || c == '{' || c == '[' || c == '('

/-! ## Literal fragments used by the source -/

def clChars : List Char := ['c', 'o', 'n', 's', 'o', 'l', 'e', '.', 'l', 'o', 'g']

def ceChars : List Char := ['c', 'o', 'n', 's', 'o', 'l', 'e', '.', 'e', 'r', 'r', 'o', 'r']

def ciChars : List Char := ['c', 'o', 'n', 's', 'o', 'l', 'e', '.', 'i', 'n', 'f', 'o']

def catchChars : List Char := ['c', 'a', 't', 'c', 'h']

def returnChars : List Char := ['r', 'e', 't', 'u', 'r', 'n']

def sl2Chars : List Char := ['/', '/']

def sStarChars : List Char := ['/', '*']

def starSChars : List Char := ['*', '/']

/-- Replacement text `console.log(...)` of the skip-pattern fingerprint. -/
def clpRepl : List Char :=
  clChars ++ ['(', '.', '.', '.', ')']

/-- The fragment `console.log(`. -/
def clOpen : List Char := clChars ++ ['(']

/-! ## Hand-compiled regex tests

Each definition below is the decidable meaning of one regular-expression
test in the source.  `scanAny f` tries `f` at every suffix, which is the
semantics of an unanchored `RegExp.test`; `dotStarThen f` is `.*` followed
by whatever `f` recognises (the dot does not cross line terminators). -/

def scanAny (f : List Char → Bool) : List Char → Bool
  | [] => f []
  | c :: r => f (c :: r) || scanAny f r

def dotStarThen (f : List Char → Bool) : List Char → Bool
  | [] => f []
  | c :: r => f (c :: r) || (!isNL c && dotStarThen f r)

/-- Test of `/catch\s*\(/` (CodeAnalyzer `_isInCatchBlock`). -/
def catchOpenTest (l : List Char) : Bool :=
  scanAny
    (fun s =>
      match dropLit? catchChars s with
      | some r =>
        match r.dropWhile jsIsWs with
        | '(' :: _ => true
        | _ => false
      | none => false) l

/-- Test of `/[a-zA-Z0-9_)\]]\..*console\.log/` (chaining before the call). -/
def chainBeforeTest (l : List Char) : Bool :=
  scanAny
    (fun s =>
      match s with
      | a :: '.' :: r => chainClass a && dotStarThen (fun t => leadMatch clChars t) r
      | _ => false) l

/-- Test of `/console\.log.*\.[a-zA-Z]/` (chaining after the call). -/
def chainAfterTest (l : List Char) : Bool :=
  scanAny
    (fun s =>
      match dropLit? clChars s with
      | some r =>
        dotStarThen
          (fun t =>
            match t with
            | '.' :: c :: _ => asciiAlpha c
            | _ => false) r
      | none => false) l

/-- Test of the anchored `/^[^/\*]*[a-zA-Z0-9_)\]\}].*console\.log/`. -/
def exprFirstTest : List Char → Bool
  | [] => false
  | c :: r =>
    (exprClassA c && dotStarThen (fun t => leadMatch clChars t) r)
      || (!(c == '/') && !(c == '*') && exprFirstTest r)

/-- Test of `/console\.log.*\)\s*[a-zA-Z0-9_{\[(]/`. -/
def exprSecondTest (l : List Char) : Bool :=
  scanAny
    (fun s =>
      match dropLit? clChars s with
      | some r =>
        dotStarThen
          (fun t =>
            match t with
            | ')' :: u =>
              (match u.dropWhile jsIsWs with
               | d :: _ => exprClassB d
               | [] => false)
            | _ => false) r
      | none => false) l

/-! ## CodeAnalyzer (src/lib/CodeAnalyzer.js) -/

/-- CodeAnalyzer `_containsConsoleLog`. -/
def containsConsoleLog (l : List Char) : Bool :=
  containsSub clChars l && !(jsTrim l).isEmpty

/-- CodeAnalyzer `_getIndentLevel` (length of the leading `\s*` run). -/
def getIndentLevel (l : List Char) : Nat :=
  (l.takeWhile jsIsWs).length

/-- CodeAnalyzer `_isCommented`. -/
def isCommentedLine (l : List Char) : Bool :=
  let trimmed := jsTrim l
  leadMatch sl2Chars trimmed
    || (leadMatch sStarChars trimmed && containsSub clChars trimmed)

/-- CodeAnalyzer `_isInTernary`. -/
def isInTernary (l : List Char) : Bool :=
  (containsSub ['?'] l && containsSub clChars l && containsSub [':'] l)
    || (containsSub [':'] l && containsSub clChars l && !leadMatch clChars (jsTrim l))

/-- CodeAnalyzer `_isInMethodChain`. -/
def isInMethodChain (l : List Char) : Bool :=
  chainBeforeTest l || chainAfterTest l

/-- CodeAnalyzer `_isPartOfExpression`. -/
def isPartOfExpression (content : List Char) : Bool :=
  let trimmed := jsTrim content
  (exprFirstTest trimmed && !leadMatch clChars trimmed) || exprSecondTest content

/-- Net `{` minus `}` count of the lines with indices `i` to `j` inclusive,
as summed by the brace-counting loop of `_isInCatchBlock`. -/
def braceBalRange (allLines : List (List Char)) (i j : Nat) : Int :=
  (List.range' i (j + 1 - i)).foldl
    (fun b k =>
      let line := allLines.getD k []
      b + ((line.count '{' : Int) - (line.count '}' : Int)))
    0

/-- Backward scan of CodeAnalyzer `_isInCatchBlock`, walking a descending
index list.  A line that fails JavaScript truthiness (empty) is skipped. -/
def catchScan (allLines : List (List Char)) (lineIndex : Nat) : List Nat → Bool
  | [] => false
  | i :: rest =>
    let line := allLines.getD i []
    if !line.isEmpty && catchOpenTest line then
      let foundCatchBrace := decide (0 < line.count '{')
      let braceCount := braceBalRange allLines i lineIndex
      if foundCatchBrace && decide (0 < braceCount) then true
      else if decide (0 < lineIndex) && decide (i = lineIndex - 1) then
        decide (getIndentLevel line < getIndentLevel (allLines.getD lineIndex []))
      else catchScan allLines lineIndex rest
    else catchScan allLines lineIndex rest

/-- CodeAnalyzer `_isInCatchBlock` (`lineIndex` is 0-based). -/
def isInCatchBlock (lineIndex : Nat) (allLines : List (List Char)) : Bool :=
  let lo := lineIndex - 15
  catchScan allLines lineIndex ((List.range' lo (lineIndex + 1 - lo)).reverse)

/-- The context fields computed by CodeAnalyzer `detectContext` that the
decision pipeline consults; fields not read by any verified operation
(`isInFunction`, `isInConditional`, `indentLevel`) are omitted. -/
structure LogContext where
  isReturnValue : Bool
  isInTernary : Bool
  isInChain : Bool
  isInCatchBlock : Bool
deriving DecidableEq

/-- Sensitive-data verdict of ModeController `_detectSensitiveData`. -/
structure SensitiveResult where
  isSensitive : Bool
  detectedPatterns : List String
  riskLevel : String
deriving DecidableEq

/-- One console.log occurrence (CodeAnalyzer `_createConsoleLogInstance`).
`isFunctional` starts out `false` and `sensitiveData` unset, exactly as in
the source; both are filled in by the mode controller. -/
structure LogInstance where
  line : Nat
  column : Int
  content : List Char
  context : LogContext
  isCommented : Bool
  isInCatchBlock : Bool
  isFunctional : Bool
  sensitiveData : Option SensitiveResult
deriving DecidableEq

/-- CodeAnalyzer `detectContext` (restricted to the consulted fields). -/
def detectContext (line : List Char) (lineNumber : Nat) (allLines : List (List Char)) :
    LogContext :=
  { isReturnValue := leadMatch returnChars (jsTrim line) && containsSub clChars line
    isInTernary := isInTernary line
    isInChain := isInMethodChain line
    isInCatchBlock := isInCatchBlock (lineNumber - 1) allLines }

/-- CodeAnalyzer `_createConsoleLogInstance`. -/
def mkInstance (line : List Char) (lineNumber : Nat) (allLines : List (List Char)) :
    LogInstance :=
  { line := lineNumber
    column := jsIndexOf clChars line + 1
    content := jsTrim line
    context := detectContext line lineNumber allLines
    isCommented := isCommentedLine line
    isInCatchBlock := isInCatchBlock (lineNumber - 1) allLines
    isFunctional := false
    sensitiveData := none }

/-- The scanning loop of CodeAnalyzer `analyzeFile`: `k` is the 0-based
index of the first line of the yet unscanned tail. -/
def analyzeAux (allLines : List (List Char)) : Nat → List (List Char) → List LogInstance
  | _, [] => []
  | k, l :: rest =>
    if containsConsoleLog l then
      mkInstance l (k + 1) allLines :: analyzeAux allLines (k + 1) rest
    else
      analyzeAux allLines (k + 1) rest

/-- CodeAnalyzer `analyzeFile`, with the file already split into lines. -/
def analyzeFileLines (lines : List (List Char)) : List LogInstance :=
  analyzeAux lines 0 lines

/-- CodeAnalyzer `isFunctionalLog`. -/
def isFunctionalLog (inst : LogInstance) : Bool :=
  inst.context.isReturnValue || inst.context.isInTernary || inst.context.isInChain
    || isPartOfExpression inst.content

/-! ## CodeTransformer (src/lib/CodeTransformer.js) -/

theorem dropLit?_some_append {p l r : List Char} (h : dropLit? p l = some r) :
    l = p ++ r := by
  induction p generalizing l with
  | nil => simpa [dropLit?] using h
  | cons a as ih =>
    cases l with
    | nil => simp [dropLit?] at h
    | cons c cs =>
      by_cases hac : a = c
      · subst hac
        simp only [dropLit?, beq_self_eq_true, if_true] at h
        simp [ih h]
      · simp [dropLit?, hac] at h

theorem dropLit?_length {p l r : List Char} (h : dropLit? p l = some r) :
    l.length = p.length + r.length := by
  have := dropLit?_some_append h
  subst this
  simp [List.length_append]

/-- JavaScript `String.prototype.replace` with a global literal pattern:
non-overlapping left-to-right replacement, the replacement text itself is
not rescanned. -/
def replaceAllSubGo (p : Char) (ps repl : List Char) : List Char → List Char
  | [] => []
  | c :: cs =>
    match h : dropLit? (p :: ps) (c :: cs) with
    | some rest => repl ++ replaceAllSubGo p ps repl rest
    | none => c :: replaceAllSubGo p ps repl cs
termination_by l => l.length
decreasing_by
  · have hlen := dropLit?_length h
    simp only [List.length_cons] at hlen ⊢
    omega
  · simp

/-- Entry point of the literal global replacement; an empty pattern never
occurs in the source. -/
def replaceAllSub (pat repl l : List Char) : List Char :=
  match pat with
  | [] => l
  | p :: ps => replaceAllSubGo p ps repl l

/-- CodeTransformer `convertToConsoleError`. -/
def convertToConsoleError (line : List Char) : List Char :=
  replaceAllSub clChars ceChars line

/-- CodeTransformer `convertToConsoleInfo`. -/
def convertToConsoleInfo (line : List Char) : List Char :=
  replaceAllSub clChars ciChars line

/-- CodeTransformer `_isStandaloneConsoleLog`. -/
def isStandaloneConsoleLog (line : List Char) : Bool :=
  let trimmed := jsTrim line
  leadMatch clChars trimmed
    && (lastIs ';' trimmed || lastIs ')' trimmed)
    && !(containsSub ['='] line && decide (jsIndexOf ['='] line < jsIndexOf clChars line))
    && !(containsSub returnChars line
          && decide (jsIndexOf returnChars line < jsIndexOf clChars line))
    && !((containsSub ['?'] line && containsSub [':'] line)
          || (containsSub [':'] line && !leadMatch clChars trimmed))
    && !(chainBeforeTest line || chainAfterTest line)

/-- CodeTransformer `safelyRemoveConsoleLog`; `none` means the whole line
is to be removed. -/
def safelyRemoveConsoleLog (line : List Char) : Option (List Char) :=
  if isStandaloneConsoleLog line then none else some line

/-- The trailing "inline comment" branch of `removeCommentedConsoleLog`
together with its final `return line`, reached when neither leading-comment
branch fires. -/
def inlineCommentBranch (line : List Char) : Option (List Char) :=
  if containsSub sl2Chars line && containsSub clChars line then
    let commentIndex := natIdx sl2Chars line
    let commentPart := line.drop commentIndex
    if containsSub clChars commentPart then
      let beforeComment := line.take commentIndex
      if !(jsTrim beforeComment).isEmpty then some (jsTrimEnd beforeComment) else none
    else some line
  else some line

/-- CodeTransformer `removeCommentedConsoleLog`; `none` means the whole
line is to be removed. -/
def removeCommentedConsoleLog (line : List Char) : Option (List Char) :=
  let trimmed := jsTrim line
  if leadMatch sl2Chars trimmed && containsSub clChars trimmed then
    let beforeComment := line.take (natIdx sl2Chars line)
    if !(jsTrim beforeComment).isEmpty then some (jsTrimEnd beforeComment) else none
  else if leadMatch sStarChars trimmed && containsSub clChars trimmed
      && containsSub starSChars trimmed then
    let commentStart := natIdx sStarChars line
    let commentEnd := natIdx starSChars line + 2
    let beforeComment := line.take commentStart
    let afterComment := line.drop commentEnd
    let commentContent := (line.drop commentStart).take (commentEnd - commentStart)
    if containsSub clChars commentContent then
      if !(jsTrim (beforeComment ++ afterComment)).isEmpty then
        some (beforeComment ++ afterComment)
      else none
    else inlineCommentBranch line
  else inlineCommentBranch line

/-- Result record of CodeTransformer `transformLine`. -/
structure TransformResult where
  success : Bool
  originalLine : List Char
  transformedLine : List Char
  action : String
  removed : Bool
  error : Option String
deriving DecidableEq

/-- CodeTransformer `transformLine`. -/
def transformLine (line : List Char) (action : String) : TransformResult :=
  if action = "convert-error" then
    ⟨true, line, convertToConsoleError line, action, false, none⟩
  else if action = "convert-info" then
    ⟨true, line, convertToConsoleInfo line, action, false, none⟩
  else if action = "delete" then
    match safelyRemoveConsoleLog line with
    | none => ⟨true, line, [], action, true, none⟩
    | some t => ⟨true, line, t, action, false, none⟩
  else if action = "remove-comment" then
    match removeCommentedConsoleLog line with
    | none => ⟨true, line, [], action, true, none⟩
    | some t => ⟨true, line, t, action, false, none⟩
  else if action = "keep" then
    ⟨true, line, line, action, false, none⟩
  else
    ⟨false, line, line, action, false, some ("Unknown action: " ++ action)⟩

/-- The `valid` flag of CodeTransformer `validateTransformation`: the
open and close counts of parentheses, braces and brackets must each be
unchanged (the semicolon check only produces a warning). -/
def validateTransformation (orig trans : List Char) : Bool :=
  (orig.count '(' == trans.count '(') && (orig.count ')' == trans.count ')')
    && (orig.count '{' == trans.count '{') && (orig.count '}' == trans.count '}')
    && (orig.count '[' == trans.count '[') && (orig.count ']' == trans.count ']')

/-- CodeTransformer `_calculateBraceBalance`. -/
def braceBalanceL (lines : List (List Char)) : Int :=
  lines.foldl (fun b l => b + ((l.count '{' : Int) - (l.count '}' : Int))) 0

/-- CodeTransformer `_calculateParenBalance`. -/
def parenBalanceL (lines : List (List Char)) : Int :=
  lines.foldl (fun b l => b + ((l.count '(' : Int) - (l.count ')' : Int))) 0

/-- The `structureIntact` flag of CodeTransformer `validateCommentRemoval`
(equal to its `valid` flag: both are cleared exactly when a whole-file
brace or parenthesis balance changed; the other checks are warnings). -/
def validateCommentRemovalIntact (origLines modLines : List (List Char)) : Bool :=
  (braceBalanceL origLines == braceBalanceL modLines)
    && (parenBalanceL origLines == parenBalanceL modLines)

/-! ## ModeController (src/lib/ModeController.js): sensitivity detection -/

/-- Case-insensitive strip of a lowercase alternative from the front of the
subject (JavaScript `/i` flag, ASCII). -/
def ciStrip? : List Char → List Char → Option (List Char)
  | [], l => some l
  | _ :: _, [] => none
  | a :: as, c :: cs => if c.toLower == a then ciStrip? as cs else none

/-- Word-character status of an optional preceding character; the start of
the string counts as a non-word position. -/
def isWordOpt : Option Char → Bool
  | none => false
  | some c => isWordChar c

/-- One attempt of `\b<alt>\b` at the current position.  Every alternative
used by the source begins and ends with a word character, so each `\b`
holds exactly when the adjacent subject character is absent or non-word. -/
def wbAt (alt : List Char) (prev : Option Char) (l : List Char) : Bool :=
  match ciStrip? alt l with
  | some rest =>
    !(isWordOpt prev)
      && (match rest with
          | [] => true
          | d :: _ => !(isWordChar d))
  | none => false

/-- Scan of `\b<alt>\b` over the whole subject. -/
def wbScan (alt : List Char) : Option Char → List Char → Bool
  | prev, [] => wbAt alt prev []
  | prev, c :: r => wbAt alt prev (c :: r) || wbScan alt (some c) r

/-- Test of `/\b(alt1|alt2|...)\b/i` (`RegExp.test`) for literal alternatives. -/
def patternTest (alts : List (List Char)) (s : List Char) : Bool :=
  alts.any (fun a => wbScan a none s)

/-- One keyword family of `_detectSensitiveData`: the expanded literal
alternatives of its regex, and the type name it records. -/
structure SensPattern where
  alts : List (List Char)
  typeName : String

def apiKeyAlts : List (List Char) :=
  [strL "apikey", strL "api_key", strL "api-key"]

def accessTokenAlts : List (List Char) :=
  [strL "accesstoken", strL "access_token", strL "access-token"]

def authTokenAlts : List (List Char) :=
  [strL "authtoken", strL "auth_token", strL "auth-token"]

def secretKeyAlts : List (List Char) :=
  [strL "secretkey", strL "secret_key", strL "secret-key"]

def passwordAlts : List (List Char) :=
  [strL "password", strL "passwd", strL "pwd"]

def credentialAlts : List (List Char) :=
  [strL "credential", strL "cred"]

def userIdAlts : List (List Char) :=
  [strL "userid", strL "user_id", strL "user-id"]

def emailAlts : List (List Char) :=
  [strL "email", strL "e_mail", strL "e-mail"]

def sessionIdAlts : List (List Char) :=
  [strL "sessionid", strL "session_id", strL "session-id"]

/-- The `highRiskPatterns` table of `_detectSensitiveData`. -/
def highRiskPatterns : List SensPattern :=
  [⟨apiKeyAlts, "API Key"⟩, ⟨accessTokenAlts, "Access Token"⟩,
   ⟨authTokenAlts, "Auth Token"⟩, ⟨secretKeyAlts, "Secret Key"⟩,
   ⟨passwordAlts, "Password"⟩, ⟨credentialAlts, "Credential"⟩]

/-- The `mediumRiskPatterns` table of `_detectSensitiveData`. -/
def mediumRiskPatterns : List SensPattern :=
  [⟨userIdAlts, "User ID"⟩, ⟨emailAlts, "Email"⟩, ⟨sessionIdAlts, "Session ID"⟩]

/-- One attempt of the argument-capture regex
`/console\.log\s*\(\s*([^)]+)\s*\)/` anchored at the current position,
returning the captured group.  The leading `\s*` inside the parentheses
backtracks by one character when the whole non-`)` run is whitespace, so
that the mandatory `[^)]+` can still consume something. -/
def argsTryAt (l : List Char) : Option (List Char) :=
  match dropLit? clChars l with
  | none => none
  | some r1 =>
    match r1.dropWhile jsIsWs with
    | '(' :: r3 =>
      let run := r3.takeWhile (fun c => !(c == ')'))
      if run.isEmpty then none
      else
        match r3.drop run.length with
        | ')' :: _ =>
          let ws := run.takeWhile jsIsWs
          if ws.length == run.length then some (run.drop (run.length - 1))
          else some (run.drop ws.length)
        | _ => none
    | _ => none

/-- Leftmost match of the argument-capture regex (JavaScript
`content.match(...)`, group 1). -/
def argsOf? : List Char → Option (List Char)
  | [] => argsTryAt []
  | c :: r =>
    match argsTryAt (c :: r) with
    | some a => some a
    | none => argsOf? r

/-- One iteration of a `_detectSensitiveData` keyword loop. -/
def sensStep (args : List Char) (risk : String) (st : SensitiveResult)
    (p : SensPattern) : SensitiveResult :=
  if patternTest p.alts args then
    ⟨true, st.detectedPatterns ++ [p.typeName], risk⟩
  else st

/-- ModeController `_detectSensitiveData`.  The medium-risk loop runs only
when the high-risk loop left the risk level below `high`, exactly as in the
source. -/
def detectSensitiveData (content : List Char) : SensitiveResult :=
  match argsOf? content with
  | none => ⟨false, [], "low"⟩
  | some args =>
    let r1 := highRiskPatterns.foldl (sensStep args "high") ⟨false, [], "low"⟩
    if r1.riskLevel ≠ "high" then
      mediumRiskPatterns.foldl (sensStep args "medium") r1
    else r1

/-! ## ModeController: automatic decision policy -/

/-- Truthiness of `instance.sensitiveData && riskLevel === 'high'`. -/
def sensitivityHigh (inst : LogInstance) : Bool :=
  match inst.sensitiveData with
  | some sd => sd.riskLevel == "high"
  | none => false

/-- ModeController `_determineAutoAction`. -/
def determineAutoAction (inst : LogInstance) : String :=
  if inst.isCommented then "remove-comment"
  else if inst.isFunctional then "keep"
  else if inst.isInCatchBlock then "convert-error"
  else if sensitivityHigh inst then "keep"
  else "delete"

/-- The per-occurrence enrichment performed by `_processFileAutoMode`
before deciding: `isFunctional` is filled in from `isFunctionalLog`, and
`sensitiveData` is attached when the detector reports sensitivity. -/
def autoEnrich (inst : LogInstance) : LogInstance :=
  let sd := detectSensitiveData inst.content
  { inst with
      isFunctional := isFunctionalLog inst
      sensitiveData := if sd.isSensitive then some sd else none }

/-- An (occurrence, action) pair as pushed onto `decisions`. -/
structure Decision where
  inst : LogInstance
  action : String
deriving DecidableEq

/-- The decision list produced by `_processFileAutoMode` for a file. -/
def autoDecisions (lines : List (List Char)) : List Decision :=
  (analyzeFileLines lines).map
    (fun inst =>
      let e := autoEnrich inst
      ⟨e, determineAutoAction e⟩)

/-! ## ModeController: skip patterns -/

/-- ModeController `_extractContentPattern`: first match of
`/console\.log\s*\([^)]*\)/`, anchored attempt at one position, returning
the remainder after the matched span. -/
def clpTryAt (l : List Char) : Option (List Char) :=
  match dropLit? clChars l with
  | none => none
  | some r1 =>
    match r1.dropWhile jsIsWs with
    | '(' :: r3 =>
      match r3.dropWhile (fun c => !(c == ')')) with
      | ')' :: r5 => some r5
      | _ => none
    | _ => none

/-- Non-global JavaScript `replace`: the leftmost match of the fingerprint
regex is replaced by `console.log(...)`. -/
def replaceFirstCLP : List Char → List Char
  | [] => []
  | c :: r =>
    match clpTryAt (c :: r) with
    | some rest => clpRepl ++ rest
    | none => c :: replaceFirstCLP r

/-- ModeController `_extractContentPattern`. -/
def extractContentPattern (content : List Char) : List Char :=
  jsTrim (replaceFirstCLP content)

/-- The fingerprint record built by ModeController `_addSkipPattern`. -/
structure SkipPattern where
  isCommented : Bool
  isInCatchBlock : Bool
  isFunctional : Bool
  contentPattern : List Char
deriving DecidableEq

/-- ModeController `_addSkipPattern` (the pattern it records). -/
def mkSkipPattern (inst : LogInstance) : SkipPattern :=
  ⟨inst.isCommented, inst.isInCatchBlock, inst.isFunctional,
   extractContentPattern inst.content⟩

/-- ModeController `_matchesPattern` (with `_contentMatchesPattern`
inlined). -/
def matchesPattern (inst : LogInstance) (p : SkipPattern) : Bool :=
  (inst.isCommented == p.isCommented)
    && (inst.isInCatchBlock == p.isInCatchBlock)
    && (inst.isFunctional == p.isFunctional)
    && (extractContentPattern inst.content == p.contentPattern)

/-! ## ModeController: applying decisions (`_applyDecisions` / `processFile`) -/

/-- State threaded through the decision loop of `_applyDecisions`:
`lineModifications` (a map with insert-or-overwrite) and `linesToRemove`
(a set with insertion order). -/
structure ApplyState where
  mods : List (Nat × List Char)
  removes : List Nat
deriving DecidableEq

/-- JavaScript `Map.set`: overwrite an existing key in place, else append. -/
def setAssoc (k : Nat) (v : List Char) : List (Nat × List Char) → List (Nat × List Char)
  | [] => [(k, v)]
  | (k1, v1) :: r => if k1 == k then (k, v) :: r else (k1, v1) :: setAssoc k v r

/-- JavaScript `Set.add`: append unless already present. -/
def addToSet (k : Nat) (s : List Nat) : List Nat :=
  if s.contains k then s else s ++ [k]

/-- Stable insertion for the descending-by-line sort of
`decisions.sort((a, b) => b.instance.line - a.instance.line)`. -/
def insDescD (d : Decision) : List Decision → List Decision
  | [] => [d]
  | e :: r => if e.inst.line ≤ d.inst.line then d :: e :: r else e :: insDescD d r

def sortDecisionsDesc (ds : List Decision) : List Decision :=
  ds.foldr insDescD []

/-- Descending numeric sort of `Array.from(linesToRemove).sort((a, b) => b - a)`. -/
def insNatDesc (n : Nat) : List Nat → List Nat
  | [] => [n]
  | m :: r => if m ≤ n then n :: m :: r else m :: insNatDesc n r

def sortNatDesc (s : List Nat) : List Nat :=
  s.foldr insNatDesc []

/-- One iteration of the decision loop of `_applyDecisions`.  A line number
of `0` corresponds to the JavaScript index `-1` (`lines[-1]` is undefined),
and an empty line fails the `!originalLine` truthiness guard; both cases
record an error and leave the state unchanged.  A transformation that fails
or does not validate is likewise skipped. -/
def applyStep (lines : List (List Char)) (st : ApplyState) (d : Decision) : ApplyState :=
  if d.inst.line == 0 then st
  else
    match lines[d.inst.line - 1]? with
    | none => st
    | some orig =>
      if orig.isEmpty then st
      else
        let tr := transformLine orig d.action
        if tr.success then
          if validateTransformation orig tr.transformedLine then
            if tr.removed then { st with removes := addToSet (d.inst.line - 1) st.removes }
            else if tr.transformedLine == orig then st
            else { st with mods := setAssoc (d.inst.line - 1) tr.transformedLine st.mods }
          else st
        else st

/-- The final modification/removal state of `_applyDecisions`. -/
def finalState (content : List Char) (decisions : List Decision) : ApplyState :=
  (sortDecisionsDesc decisions).foldl (applyStep (splitLinesL content)) ⟨[], []⟩

/-- Application of `lineModifications.forEach((newContent, lineIndex) => lines[lineIndex] = newContent)`. -/
def applyMods (mods : List (Nat × List Char)) (lines : List (List Char)) :
    List (List Char) :=
  lines.mapIdx (fun i l =>
    match List.lookup i mods with
    | some v => v
    | none => l)

/-- Splice out the given (descending) indices one after the other. -/
def removeAll (idxs : List Nat) (lines : List (List Char)) : List (List Char) :=
  idxs.foldl (fun ls i => ls.eraseIdx i) lines

/-- The mutated line array of `_applyDecisions` for a given state. -/
def coreLinesOf (content : List Char) (st : ApplyState) : List (List Char) :=
  removeAll (sortNatDesc st.removes) (applyMods st.mods (splitLinesL content))

/-- The joined `modifiedContent = lines.join('\n')` for a given state. -/
def coreJoinedOf (content : List Char) (st : ApplyState) : List Char :=
  joinLinesL (coreLinesOf content st)

/-- The check `lineModifications.size > 0 || linesToRemove.size > 0`. -/
def hasEditsOf (st : ApplyState) : Bool :=
  !st.mods.isEmpty || !st.removes.isEmpty

/-- The whole-file rejection condition of `_applyDecisions`: edits were
made and `validateCommentRemoval` reports the structure as not intact. -/
def rejectedOf (content : List Char) (st : ApplyState) : Bool :=
  hasEditsOf st
    && !(validateCommentRemovalIntact (splitLinesL content)
          (splitLinesL (coreJoinedOf content st)))

/-- ModeController `_applyDecisions`: either the modified content, or the
error thrown when the whole-file structure validation fails. -/
def applyDecisionsE (content : List Char) (decisions : List Decision) :
    Except String (List Char) :=
  let st := finalState content decisions
  if rejectedOf content st then
    Except.error "Failed to apply decisions: File structure validation failed"
  else
    Except.ok (coreJoinedOf content st)

/-- The slice of the per-file result of ModeController `processFile` that
the error-handling claims are about. -/
structure FileApplyResult where
  newContent : List Char
  modified : Bool
deriving DecidableEq

/-- The application stage of ModeController `processFile`: the content
produced by `_applyDecisions` and the `modified` flag on success; on a
thrown error the surrounding `catch` returns the result object untouched,
so the original content with `modified = false`. -/
def processFileApplyModel (content : List Char) (decisions : List Decision) :
    FileApplyResult :=
  match applyDecisionsE content decisions with
  | Except.ok n => ⟨n, n != content⟩
  | Except.error _ => ⟨content, false⟩

/-! ## Support lemmas -/

theorem count_replaceAllSubGo (p : Char) (ps repl : List Char) (c0 : Char)
    (hpat : (p :: ps).count c0 = 0) (hrepl : repl.count c0 = 0) :
    ∀ l : List Char, (replaceAllSubGo p ps repl l).count c0 = l.count c0 := by
  intro l
  induction l using replaceAllSubGo.induct p ps repl with
  | case1 => simp [replaceAllSubGo]
  | case2 c cs rest h ih =>
    have hsplit : c :: cs = (p :: ps) ++ rest := dropLit?_some_append h
    rw [replaceAllSubGo, h, hsplit]
    simp only [List.count_append, hpat, hrepl, ih]
  | case3 c cs h ih =>
    rw [replaceAllSubGo, h]
    simp [List.count_cons, ih]

theorem count_replaceAllSub_eq (repl l : List Char) (c0 : Char)
    (hpat : clChars.count c0 = 0) (hrepl : repl.count c0 = 0) :
    (replaceAllSub clChars repl l).count c0 = l.count c0 := by
  have := count_replaceAllSubGo 'c' ['o', 'n', 's', 'o', 'l', 'e', '.', 'l', 'o', 'g']
    repl c0 (by simpa [clChars] using hpat) hrepl l
  simpa [replaceAllSub, clChars] using this

/-- Equality of the open and close counts for all three delimiter pairs, as
`validateTransformation` checks them. -/
def delimCountsEq (a b : List Char) : Bool :=
  (a.count '(' == b.count '(') && (a.count ')' == b.count ')')
    && (a.count '{' == b.count '{') && (a.count '}' == b.count '}')
    && (a.count '[' == b.count '[') && (a.count ']' == b.count ']')

theorem delimCountsEq_replaceAllSub (repl l : List Char)
    (hr : repl.count '(' = 0 ∧ repl.count ')' = 0 ∧ repl.count '{' = 0
      ∧ repl.count '}' = 0 ∧ repl.count '[' = 0 ∧ repl.count ']' = 0) :
    delimCountsEq l (replaceAllSub clChars repl l) = true := by
  obtain ⟨r1, r2, r3, r4, r5, r6⟩ := hr
  simp only [delimCountsEq, Bool.and_eq_true, beq_iff_eq]
  refine ⟨⟨⟨⟨⟨?_, ?_⟩, ?_⟩, ?_⟩, ?_⟩, ?_⟩ <;>
    exact (count_replaceAllSub_eq repl l _ (by decide) (by assumption)).symm

/-! ## Claim C1 -/

/-- Modelled from the spec: the automatic-mode rule table of section 4.5,
exactly as the claim words it — commented, then functional, then error
handler, then high sensitivity, otherwise delete. -/
def specAutoAction (commented functional inCatch sensHigh : Bool) : String :=
  if commented then "remove-comment"
  else if functional then "keep"
  else if inCatch then "convert-error"
  else if sensHigh then "keep"
  else "delete"

/-- C1: in automatic mode, for every occurrence with its flags and
sensitivity already computed, `_determineAutoAction` follows exactly the
fixed precedence commented → remove-comment, functional → keep, error
handler → convert-error, high sensitivity → keep, otherwise delete. -/
theorem autoAction_follows_spec_precedence (inst : LogInstance) :
    determineAutoAction inst =
      specAutoAction inst.isCommented inst.isFunctional inst.isInCatchBlock
        (sensitivityHigh inst) := rfl

/-! ## Claim C2 -/

/-- C2 (amended): `transformLine line "delete"` always succeeds, removes
the line exactly when `_isStandaloneConsoleLog` accepts it, and returns
every non-standalone line unchanged with `removed = false`.  The code's
standalone predicate rejects any line containing both `?` and `:` anywhere
on the line, even inside the call's own argument list. -/
theorem delete_removes_iff_standalone (line : List Char) :
    (transformLine line "delete").success = true
    ∧ (transformLine line "delete").removed = isStandaloneConsoleLog line
    ∧ (transformLine line "delete").transformedLine
        = (if isStandaloneConsoleLog line then [] else line) := by
  by_cases h : isStandaloneConsoleLog line <;>
    simp [transformLine, safelyRemoveConsoleLog, h]

/-- C2 (counterexample): the line `console.log(x ? 1 : 2);` satisfies every
condition of the claim's standalone description — the trimmed line starts
with the call token, ends with `;`, contains no `=`, no `return`, no dotted
chain, and its only `?` and `:` lie strictly between the call's opening and
closing parentheses — yet `delete` returns the line unchanged with
`removed = false` instead of the claimed `removed = true`. -/
theorem delete_removes_iff_standalone_counterexample :
    (leadMatch clChars (jsTrim (strL "console.log(x ? 1 : 2);")) = true)
    ∧ (lastIs ';' (jsTrim (strL "console.log(x ? 1 : 2);")) = true)
    ∧ (containsSub ['='] (strL "console.log(x ? 1 : 2);") = false)
    ∧ (containsSub returnChars (strL "console.log(x ? 1 : 2);") = false)
    ∧ (chainBeforeTest (strL "console.log(x ? 1 : 2);") = false)
    ∧ (chainAfterTest (strL "console.log(x ? 1 : 2);") = false)
    ∧ (natIdx ['('] (strL "console.log(x ? 1 : 2);")
        < natIdx ['?'] (strL "console.log(x ? 1 : 2);"))
    ∧ (natIdx ['?'] (strL "console.log(x ? 1 : 2);")
        < natIdx [':'] (strL "console.log(x ? 1 : 2);"))
    ∧ (natIdx [':'] (strL "console.log(x ? 1 : 2);")
        < natIdx [')'] (strL "console.log(x ? 1 : 2);"))
    ∧ ((transformLine (strL "console.log(x ? 1 : 2);") "delete").removed = false)
    ∧ ((transformLine (strL "console.log(x ? 1 : 2);") "delete").transformedLine
        = strL "console.log(x ? 1 : 2);") := by decide

/-! ## Claim C4 -/

/-- The four-line input file of the catch-block scenario. -/
def c4Lines : List (List Char) :=
  [strL "try \x7b", strL "\x7d catch (e) \x7b",
   strL "  console.log(\x27oops\x27);", strL "\x7d"]

/-- C4: on the file `try { / } catch (e) { / console.log('oops'); / }`,
automatic mode finds exactly the occurrence on line 3, classifies it as
inside the catch block and not functional, and selects `convert-error`. -/
theorem catch_block_scenario_converts_to_error :
    (autoDecisions c4Lines).map
        (fun d => (d.inst.line, d.inst.isInCatchBlock, d.inst.isFunctional, d.action))
      = [(3, true, false, "convert-error")] := by decide

/-! ## Claim C5 -/

/-- C5 (amended): the `convert-error`, `convert-info` and `keep` transforms
always succeed without removing the line and preserve the open and close
counts of `(`, `{` and `[` (and of their closing partners); the claim's
inclusion of `remove-comment` is dropped, since a removed comment span may
itself contain delimiters. -/
theorem nondelete_transforms_preserve_delimiters (line : List Char) :
    ((transformLine line "convert-error").success = true
      ∧ (transformLine line "convert-error").removed = false
      ∧ delimCountsEq line (transformLine line "convert-error").transformedLine = true)
    ∧ ((transformLine line "convert-info").success = true
      ∧ (transformLine line "convert-info").removed = false
      ∧ delimCountsEq line (transformLine line "convert-info").transformedLine = true)
    ∧ ((transformLine line "keep").success = true
      ∧ (transformLine line "keep").removed = false
      ∧ delimCountsEq line (transformLine line "keep").transformedLine = true) :=
  ⟨⟨rfl, rfl, delimCountsEq_replaceAllSub ceChars line (by decide)⟩,
   ⟨rfl, rfl, delimCountsEq_replaceAllSub ciChars line (by decide)⟩,
   ⟨rfl, rfl, by show delimCountsEq line line = true; simp [delimCountsEq]⟩⟩

/-- C5 (counterexample): on `a(); // console.log('x');` the
`remove-comment` transform succeeds and produces a replacement text rather
than a removal, yet the open-parenthesis count drops from 2 to 1, so the
claim's balance preservation fails for `remove-comment`. -/
theorem nondelete_transforms_preserve_delimiters_counterexample :
    ((transformLine (strL "a(); // console.log(\x27x\x27);") "remove-comment").success
        = true)
    ∧ ((transformLine (strL "a(); // console.log(\x27x\x27);") "remove-comment").removed
        = false)
    ∧ ((transformLine (strL "a(); // console.log(\x27x\x27);")
          "remove-comment").transformedLine = strL "a();")
    ∧ ((strL "a(); // console.log(\x27x\x27);").count '(' = 2)
    ∧ ((strL "a();").count '(' = 1) := by decide

/-! ## Claim C6 -/

theorem isSome_firstIdxSubAux (pat : List Char) :
    ∀ (l : List Char) (n m : Nat),
      (firstIdxSubAux pat n l).isSome = (firstIdxSubAux pat m l).isSome := by
  intro l
  induction l with
  | nil =>
    intro n m
    by_cases h : leadMatch pat [] <;> simp [firstIdxSubAux, h]
  | cons c r ih =>
    intro n m
    by_cases h : leadMatch pat (c :: r) <;> simp [firstIdxSubAux, h, ih (n + 1) (m + 1)]

theorem containsSub_cons (pat : List Char) (c : Char) (l : List Char)
    (h : containsSub pat l = true) : containsSub pat (c :: l) = true := by
  by_cases hl : leadMatch pat (c :: l)
  · simp [containsSub, firstIdxSub, firstIdxSubAux, hl]
  · simp only [containsSub, firstIdxSub, firstIdxSubAux, hl, if_false, Bool.false_eq_true]
    rw [isSome_firstIdxSubAux pat l 1 0]
    exact h

theorem containsSub_append_left (pat x l : List Char)
    (h : containsSub pat l = true) : containsSub pat (x ++ l) = true := by
  induction x with
  | nil => simpa using h
  | cons c r ih => exact containsSub_cons pat c (r ++ l) ih

/-- C6: for a line of the form `<code>//<comment>` — the first `//` of the
line sitting right after `<code>`, the comment containing the call, the
code part non-blank and the trimmed line not itself starting with `//` or
`/*` — the `remove-comment` transform succeeds without removing the line
and returns exactly the code portion trimmed of trailing whitespace,
preserving its leading indentation and every code character. -/
theorem removeComment_inline_keeps_code (code rest : List Char)
    (h1 : leadMatch sl2Chars (jsTrim (code ++ sl2Chars ++ rest)) = false)
    (h2 : leadMatch sStarChars (jsTrim (code ++ sl2Chars ++ rest)) = false)
    (h3 : firstIdxSub sl2Chars (code ++ sl2Chars ++ rest) = some code.length)
    (h4 : containsSub clChars rest = true)
    (h5 : (jsTrim code).isEmpty = false) :
    (transformLine (code ++ sl2Chars ++ rest) "remove-comment").success = true
    ∧ (transformLine (code ++ sl2Chars ++ rest) "remove-comment").removed = false
    ∧ (transformLine (code ++ sl2Chars ++ rest) "remove-comment").transformedLine
        = jsTrimEnd code := by
  have hassoc : code ++ sl2Chars ++ rest = code ++ (sl2Chars ++ rest) :=
    List.append_assoc code sl2Chars rest
  have h3x : firstIdxSub sl2Chars (code ++ (sl2Chars ++ rest)) = some code.length := by
    rw [← hassoc]; exact h3
  have hc1 : containsSub sl2Chars (code ++ sl2Chars ++ rest) = true := by
    simp [containsSub, h3, h3x]
  have hc2 : containsSub clChars (code ++ sl2Chars ++ rest) = true := by
    rw [hassoc]
    exact containsSub_append_left clChars code (sl2Chars ++ rest)
      (containsSub_append_left clChars sl2Chars rest h4)
  have hidx : natIdx sl2Chars (code ++ sl2Chars ++ rest) = code.length := by
    simp [natIdx, h3, h3x]
  have hdrop : (code ++ sl2Chars ++ rest).drop code.length = sl2Chars ++ rest := by
    rw [hassoc]
    exact List.drop_left code (sl2Chars ++ rest)
  have htake : (code ++ sl2Chars ++ rest).take code.length = code := by
    rw [hassoc]
    exact List.take_left code (sl2Chars ++ rest)
  have hcp : containsSub clChars ((code ++ sl2Chars ++ rest).drop code.length) = true := by
    rw [hdrop]
    exact containsSub_append_left clChars sl2Chars rest h4
  have key : removeCommentedConsoleLog (code ++ sl2Chars ++ rest)
      = some (jsTrimEnd code) := by
    unfold removeCommentedConsoleLog
    simp only [h1, h2, Bool.false_and, if_false]
    unfold inlineCommentBranch
    simp only [hc1, hc2, Bool.true_and, if_true, hidx, hcp, htake, h5,
      Bool.not_false, if_true]
    simp
  have key2 : removeCommentedConsoleLog (code ++ (sl2Chars ++ rest))
      = some (jsTrimEnd code) := by
    rw [← hassoc]; exact key
  refine ⟨?_, ?_, ?_⟩ <;> simp [transformLine, key, key2]

/-- C6 witness: the claim's own example `  const x = 5; // console.log('debug');`
satisfies the hypotheses and yields `  const x = 5;`. -/
theorem removeComment_inline_keeps_code_witness :
    (transformLine (strL "  const x = 5; " ++ sl2Chars ++ strL " console.log(\x27debug\x27);")
        "remove-comment").success = true
    ∧ (transformLine (strL "  const x = 5; " ++ sl2Chars ++ strL " console.log(\x27debug\x27);")
        "remove-comment").removed = false
    ∧ (transformLine (strL "  const x = 5; " ++ sl2Chars ++ strL " console.log(\x27debug\x27);")
        "remove-comment").transformedLine = strL "  const x = 5;" := by
  have h := removeComment_inline_keeps_code (strL "  const x = 5; ")
    (strL " console.log(\x27debug\x27);") (by decide) (by decide) (by decide)
    (by decide) (by decide)
  exact ⟨h.1, h.2.1, h.2.2.trans (by decide)⟩

/-! ## Claim C7 -/

/-- Type names of the patterns of one risk family that match the captured
argument text, in table order. -/
def matchedTypes (pats : List SensPattern) (args : List Char) : List String :=
  (pats.filter (fun p => patternTest p.alts args)).map (fun p => p.typeName)

theorem sensFold_eq (args : List Char) (risk : String) :
    ∀ (pats : List SensPattern) (st : SensitiveResult),
      pats.foldl (sensStep args risk) st =
        ⟨st.isSensitive || pats.any (fun p => patternTest p.alts args),
         st.detectedPatterns ++ matchedTypes pats args,
         if pats.any (fun p => patternTest p.alts args) then risk
         else st.riskLevel⟩ := by
  intro pats
  induction pats with
  | nil => intro st; simp [matchedTypes]
  | cons p ps ih =>
    intro st
    by_cases hp : patternTest p.alts args
    · simp [sensStep, hp, ih, matchedTypes, List.filter_cons]
    · simp [sensStep, hp, ih, matchedTypes, List.filter_cons]

/-- C7 (amended): for every call content, the sensitivity result records
the type names of all matched high-risk patterns, records medium-risk type
names only when no high-risk pattern matched (so a call matching both a
high- and a medium-risk keyword omits the medium family's names), and its
risk level is the maximum across the matched families. -/
theorem sensitivity_risk_is_max_but_medium_names_dropped (content : List Char) :
    detectSensitiveData content =
      match argsOf? content with
      | none => ⟨false, [], "low"⟩
      | some args =>
        ⟨highRiskPatterns.any (fun p => patternTest p.alts args)
           || mediumRiskPatterns.any (fun p => patternTest p.alts args),
         matchedTypes highRiskPatterns args
           ++ (if highRiskPatterns.any (fun p => patternTest p.alts args) then []
               else matchedTypes mediumRiskPatterns args),
         if highRiskPatterns.any (fun p => patternTest p.alts args) then "high"
         else if mediumRiskPatterns.any (fun p => patternTest p.alts args) then "medium"
         else "low"⟩ := by
  cases hm : argsOf? content with
  | none => simp [detectSensitiveData, hm]
  | some args =>
    simp only [detectSensitiveData, hm]
    rw [sensFold_eq]
    by_cases hh : highRiskPatterns.any (fun p => patternTest p.alts args)
    · simp [hh]
    · simp only [hh, Bool.false_or, if_false, Bool.or_false, if_neg, ite_false]
      simp only [ne_eq]
      rw [if_pos (by simp)]
      rw [sensFold_eq]
      simp

/-- C7 (counterexample): `console.log(password, email)` matches the
high-risk `password` keyword and the medium-risk `email` keyword, but the
result records only `Password` — the matched medium family's type name is
not in the detected-patterns list, refuting the claim that every matched
family is recorded. -/
theorem sensitivity_records_counterexample :
    detectSensitiveData (strL "console.log(password, email)")
        = ⟨true, ["Password"], "high"⟩
    ∧ argsOf? (strL "console.log(password, email)") = some (strL "password, email")
    ∧ patternTest emailAlts (strL "password, email") = true
    ∧ ((detectSensitiveData (strL "console.log(password, email)")).detectedPatterns.contains
        "Email") = false := by decide

/-! ## Claim C8 -/

theorem dropLit?_append (p t : List Char) : dropLit? p (p ++ t) = some t := by
  induction p with
  | nil => simp [dropLit?]
  | cons a as ih => simp [dropLit?, ih]

theorem dropWhile_append_all (p : Char → Bool) (xs ys : List Char)
    (h : xs.all p = true) : (xs ++ ys).dropWhile p = ys.dropWhile p := by
  induction xs with
  | nil => simp
  | cons x r ih =>
    simp only [List.all_cons, Bool.and_eq_true] at h
    simp [List.dropWhile_cons, h.1, ih h.2]

/-- On a content of the shape `console.log(<args>)<rest>` whose argument
text contains no `)`, the fingerprint regex matches exactly the call span,
so the fingerprint is `console.log(...)<rest>` trimmed — independent of the
argument text. -/
theorem extractContentPattern_shape (args rest : List Char)
    (h : args.all (fun c => !(c == ')')) = true) :
    extractContentPattern (clOpen ++ args ++ ')' :: rest) = jsTrim (clpRepl ++ rest) := by
  have htry : clpTryAt (clOpen ++ args ++ ')' :: rest) = some rest := by
    have hshape : clOpen ++ args ++ ')' :: rest
        = clChars ++ ('(' :: (args ++ ')' :: rest)) := by
      simp [clOpen]
    have h1 : dropLit? clChars (clOpen ++ args ++ ')' :: rest)
        = some ('(' :: (args ++ ')' :: rest)) := by
      rw [hshape]
      exact dropLit?_append clChars ('(' :: (args ++ ')' :: rest))
    have hwsf : jsIsWs '(' = false := by decide
    have hdw : (args ++ ')' :: rest).dropWhile (fun c => !(c == ')')) = ')' :: rest := by
      rw [dropWhile_append_all _ args (')' :: rest) h]
      simp [List.dropWhile_cons]
    have h1x : dropLit? clChars (clOpen ++ (args ++ ')' :: rest))
        = some ('(' :: (args ++ ')' :: rest)) := by
      rw [← List.append_assoc]
      exact h1
    simp [clpTryAt, h1, h1x, hwsf, hdw, List.dropWhile_cons]
  have hcons : clOpen ++ args ++ ')' :: rest
      = 'c' :: (['o', 'n', 's', 'o', 'l', 'e', '.', 'l', 'o', 'g', '(']
          ++ (args ++ ')' :: rest)) := by
    simp [clOpen, clChars]
  have htry2 : clpTryAt ('c' :: (['o', 'n', 's', 'o', 'l', 'e', '.', 'l', 'o', 'g', '(']
      ++ (args ++ ')' :: rest))) = some rest := by
    rw [← hcons]; exact htry
  have hstep : replaceFirstCLP (clOpen ++ args ++ ')' :: rest) = clpRepl ++ rest := by
    rw [hcons]
    simp only [replaceFirstCLP, htry2]
  unfold extractContentPattern
  rw [hstep]

/-- C8 (amended): for two occurrences with identical `isCommented`,
`isInCatchBlock` and `isFunctional` flags whose contents are each of the
form `console.log(<args>)<rest>` with the same `<rest>` and argument texts
free of `)`, the skip pattern recorded from one matches the other: the
fingerprint does not depend on such literal argument values.  (Argument
text containing `)` escapes the `[^)]*` capture and can still make
fingerprints differ.) -/
theorem skip_fingerprint_ignores_literal_args (i1 i2 : LogInstance)
    (args1 args2 rest : List Char)
    (hf1 : i2.isCommented = i1.isCommented)
    (hf2 : i2.isInCatchBlock = i1.isInCatchBlock)
    (hf3 : i2.isFunctional = i1.isFunctional)
    (hc1 : i1.content = clOpen ++ args1 ++ ')' :: rest)
    (hc2 : i2.content = clOpen ++ args2 ++ ')' :: rest)
    (ha1 : args1.all (fun c => !(c == ')')) = true)
    (ha2 : args2.all (fun c => !(c == ')')) = true) :
    matchesPattern i2 (mkSkipPattern i1) = true := by
  have e1 : extractContentPattern i1.content = jsTrim (clpRepl ++ rest) := by
    rw [hc1]; exact extractContentPattern_shape args1 rest ha1
  have e2 : extractContentPattern i2.content = jsTrim (clpRepl ++ rest) := by
    rw [hc2]; exact extractContentPattern_shape args2 rest ha2
  simp only [matchesPattern, mkSkipPattern, e1, e2, hf1, hf2, hf3]
  simp

/-- C8 witness: two occurrences logging the literals `'a'` and `'b'`. -/
theorem skip_fingerprint_ignores_literal_args_witness :
    matchesPattern
      ⟨2, 1, clOpen ++ strL "\x27b\x27" ++ ')' :: strL ";",
        ⟨false, false, false, false⟩, false, false, false, none⟩
      (mkSkipPattern
        ⟨1, 1, clOpen ++ strL "\x27a\x27" ++ ')' :: strL ";",
          ⟨false, false, false, false⟩, false, false, false, none⟩) = true :=
  skip_fingerprint_ignores_literal_args _ _ (strL "\x27a\x27") (strL "\x27b\x27")
    (strL ";") rfl rfl rfl rfl rfl (by decide) (by decide)

/-- The two occurrences of the C8 counterexample: identical flags, contents
`console.log(f(x), 1);` and `console.log(f(x), 2);` differing only in the
literal argument value `1` versus `2` inside the call's parentheses. -/
def skipCexA : LogInstance :=
  ⟨1, 1, strL "console.log(f(x), 1);", ⟨false, false, false, false⟩,
   false, false, false, none⟩

def skipCexB : LogInstance :=
  ⟨2, 1, strL "console.log(f(x), 2);", ⟨false, false, false, false⟩,
   false, false, false, none⟩

/-- C8 (counterexample): the argument text `f(x), 1` contains a `)`, so the
fingerprint regex `[^)]*` stops at the nested `)` and the differing literal
survives into the fingerprints; the two occurrences have identical flags
and differ only in a literal argument value, yet a skip pattern recorded
from one does not match the other. -/
theorem skip_fingerprint_counterexample :
    (skipCexB.isCommented == skipCexA.isCommented) = true
    ∧ (skipCexB.isInCatchBlock == skipCexA.isInCatchBlock) = true
    ∧ (skipCexB.isFunctional == skipCexA.isFunctional) = true
    ∧ extractContentPattern skipCexA.content = strL "console.log(...), 1);"
    ∧ extractContentPattern skipCexB.content = strL "console.log(...), 2);"
    ∧ matchesPattern skipCexB (mkSkipPattern skipCexA) = false := by decide

/-! ## Claim C9 -/

/-- The five actions with a `switch` case in `transformLine`. -/
def isKnownAction (a : String) : Bool :=
  a == "delete" || a == "convert-error" || a == "convert-info"
    || a == "remove-comment" || a == "keep"

theorem transformLine_unknown (line : List Char) (a : String)
    (h : isKnownAction a = false) :
    transformLine line a = ⟨false, line, line, a, false,
      some ("Unknown action: " ++ a)⟩ := by
  simp only [isKnownAction, Bool.or_eq_false_iff, beq_eq_false_iff_ne, ne_eq] at h
  obtain ⟨⟨⟨⟨h1, h2⟩, h3⟩, h4⟩, h5⟩ := h
  simp [transformLine, h1, h2, h3, h4, h5]

theorem applyStep_unknown (lines : List (List Char)) (d : Decision)
    (h : isKnownAction d.action = false) : ∀ st, applyStep lines st d = st := by
  intro st
  unfold applyStep
  by_cases h0 : d.inst.line == 0
  · simp [h0]
  · cases hL : lines[d.inst.line - 1]? with
    | none => simp [h0, hL]
    | some orig => simp [h0, hL, transformLine_unknown orig d.action h]

theorem foldl_insDescD_id {σ : Type} (f : σ → Decision → σ) (d : Decision)
    (hid : ∀ s, f s d = s) :
    ∀ (l : List Decision) (s : σ), (insDescD d l).foldl f s = l.foldl f s := by
  intro l
  induction l with
  | nil => intro s; simp [insDescD, hid]
  | cons e r ih =>
    intro s
    unfold insDescD
    by_cases hc : e.inst.line ≤ d.inst.line
    · simp [hc, List.foldl_cons, hid]
    · simp [hc, List.foldl_cons, ih]

theorem finalState_unknown_cons (content : List Char) (d : Decision)
    (ds : List Decision) (h : isKnownAction d.action = false) :
    finalState content (d :: ds) = finalState content ds := by
  unfold finalState sortDecisionsDesc
  simp only [List.foldr_cons]
  exact foldl_insDescD_id _ d (applyStep_unknown _ d h) _ _

/-- C9: a transform with an action outside the five known ones fails with
the descriptive message `Unknown action: <action>` while leaving the text
untouched and removing nothing, and a decision carrying such an action
contributes nothing to the file's edit set — the per-file result is the
same as if the decision were absent, with the remaining decisions still
processed and no exception escaping. -/
theorem unknown_action_fails_and_line_kept (line content : List Char)
    (d : Decision) (ds : List Decision) (h : isKnownAction d.action = false) :
    (transformLine line d.action).success = false
    ∧ (transformLine line d.action).error
        = some ("Unknown action: " ++ d.action)
    ∧ (transformLine line d.action).transformedLine = line
    ∧ (transformLine line d.action).removed = false
    ∧ processFileApplyModel content (d :: ds) = processFileApplyModel content ds := by
  have ht := transformLine_unknown line d.action h
  have hf := finalState_unknown_cons content d ds h
  refine ⟨by rw [ht], by rw [ht], by rw [ht], by rw [ht], ?_⟩
  unfold processFileApplyModel applyDecisionsE
  rw [hf]

/-- The occurrence used by the C9 witness. -/
def unknownCexInstance : LogInstance :=
  ⟨1, 1, strL "console.log(1);", ⟨false, false, false, false⟩,
   false, false, false, none⟩

/-- C9 witness: the unknown action `explode` on a one-line file. -/
theorem unknown_action_fails_and_line_kept_witness :
    (transformLine (strL "x") "explode").success = false
    ∧ (transformLine (strL "x") "explode").error = some "Unknown action: explode"
    ∧ (transformLine (strL "x") "explode").transformedLine = strL "x"
    ∧ (transformLine (strL "x") "explode").removed = false
    ∧ processFileApplyModel (strL "console.log(1);")
          (⟨unknownCexInstance, "explode"⟩ :: [])
        = processFileApplyModel (strL "console.log(1);") [] := by
  have h := unknown_action_fails_and_line_kept (strL "x") (strL "console.log(1);")
    ⟨unknownCexInstance, "explode"⟩ [] (by decide)
  exact ⟨h.1, h.2.1.trans (by decide), h.2.2.1, h.2.2.2.1, h.2.2.2.2⟩

/-! ## Claim C3 -/

/-- C3: applying a file's decision set is a total function — no exception
escapes — and whenever edits were made whose whole-file brace or
parenthesis balance differs from the original's, the thrown validation
error is caught and the per-file result is exactly the original content
with `modified = false`; otherwise the mutated content is returned with
`modified` recording whether it differs from the original. -/
theorem structural_failure_discards_edits (content : List Char)
    (decisions : List Decision) :
    (processFileApplyModel content decisions =
      if rejectedOf content (finalState content decisions)
        then ⟨content, false⟩
        else ⟨coreJoinedOf content (finalState content decisions),
              coreJoinedOf content (finalState content decisions) != content⟩)
    ∧ rejectedOf content (finalState content decisions)
        = (hasEditsOf (finalState content decisions)
            && !((braceBalanceL (splitLinesL content)
                    == braceBalanceL (splitLinesL
                        (coreJoinedOf content (finalState content decisions))))
                  && (parenBalanceL (splitLinesL content)
                    == parenBalanceL (splitLinesL
                        (coreJoinedOf content (finalState content decisions)))))) := by
  constructor
  · unfold processFileApplyModel applyDecisionsE
    by_cases hr : rejectedOf content (finalState content decisions) <;> simp [hr]
  · rfl

/-! ## Claim C10 -/

theorem analyzeAux_map_line (all : List (List Char)) :
    ∀ (ls : List (List Char)) (k : Nat),
      (analyzeAux all k ls).map (fun i => i.line)
        = ((List.enumFrom k ls).filter (fun p => containsConsoleLog p.2)).map
            (fun p => p.1 + 1) := by
  intro ls
  induction ls with
  | nil => intro k; simp [analyzeAux]
  | cons l r ih =>
    intro k
    by_cases hc : containsConsoleLog l
    · simp [analyzeAux, List.enumFrom, hc, List.filter_cons, ih, mkInstance]
    · simp [analyzeAux, List.enumFrom, hc, List.filter_cons, ih]

theorem analyzeAux_line_bounds (all : List (List Char)) :
    ∀ (ls : List (List Char)) (k : Nat) (inst : LogInstance),
      inst ∈ analyzeAux all k ls → k < inst.line ∧ inst.line ≤ k + ls.length := by
  intro ls
  induction ls with
  | nil => intro k inst hmem; simp [analyzeAux] at hmem
  | cons l r ih =>
    intro k inst hmem
    by_cases hc : containsConsoleLog l
    · simp only [analyzeAux, hc, if_true, List.mem_cons] at hmem
      rcases hmem with hmem | hmem
      · subst hmem
        simp only [mkInstance, List.length_cons]
        omega
      · have := ih (k + 1) inst hmem
        constructor <;> [omega; (simp only [List.length_cons]; omega)]
    · simp only [analyzeAux, hc, if_false] at hmem
      have := ih (k + 1) inst hmem
      constructor <;> [omega; (simp only [List.length_cons]; omega)]

theorem analyzeAux_pairwise (all : List (List Char)) :
    ∀ (ls : List (List Char)) (k : Nat),
      List.Pairwise (· < ·) ((analyzeAux all k ls).map (fun i => i.line)) := by
  intro ls
  induction ls with
  | nil => intro k; simp [analyzeAux]
  | cons l r ih =>
    intro k
    by_cases hc : containsConsoleLog l
    · simp only [analyzeAux, hc, if_true, List.map_cons, List.pairwise_cons]
      refine ⟨?_, ih (k + 1)⟩
      intro m hm
      rw [List.mem_map] at hm
      obtain ⟨inst, hmem, rfl⟩ := hm
      have := (analyzeAux_line_bounds all r (k + 1) inst hmem).1
      simp [mkInstance]
      omega
    · simp only [analyzeAux, hc, if_false]
      exact ih (k + 1)

/-- C10: `analyzeFile` yields exactly one occurrence per line that contains
the substring `console.log` (and is non-blank after trimming) — whatever
syntactic role the substring plays on that line — with 1-based line numbers
in strictly increasing order, each at most the number of lines of the file,
and no occurrence for any other line. -/
theorem analyzeFile_one_occurrence_per_matching_line (lines : List (List Char)) :
    ((analyzeFileLines lines).map (fun i => i.line)
        = ((lines.enum.filter (fun p => containsConsoleLog p.2)).map
            (fun p => p.1 + 1)))
    ∧ List.Pairwise (· < ·) ((analyzeFileLines lines).map (fun i => i.line))
    ∧ ((analyzeFileLines lines).map (fun i => i.line)).all
        (fun n => decide (n ≤ lines.length)) = true := by
  refine ⟨?_, ?_, ?_⟩
  · unfold analyzeFileLines
    rw [analyzeAux_map_line lines lines 0]
    simp [List.enum]
  · exact analyzeAux_pairwise lines lines 0
  · rw [List.all_eq_true]
    intro n hn
    rw [List.mem_map] at hn
    obtain ⟨inst, hmem, rfl⟩ := hn
    have := analyzeAux_line_bounds lines lines 0 inst hmem
    simpa using this.2
